import Mathlib

set_option maxHeartbeats 1000000

/-!
Shallow embedding of `src/main.go` (a Telegram bot that collects labeled
facts about a user through a guided dialogue and persists all user sessions
as a single JSON snapshot), together with proofs of the specification
claims about it.

Conventions of the embedding:
* Go methods that mutate the receiver become Lean functions returning the
  updated `UserState` along with the original return values.
* The Go `map[string]string` field `Data` is embedded as an
  insertion-ordered association list with `mapGet` / `mapSet` mirroring
  Go map indexing and assignment.
* `strings.ToLower` is modelled by `goToLower`, which lower-cases every
  character (`Char.toLower` covers the ASCII range, which includes every
  label the handlers compare against).
* The terminated dialogue is represented by `State = ""`, exactly as
  `HandleText` writes it in the source (`u.State = ""`).
-/

/-- `StateChoosing` constant from `main.go`. -/
def StateChoosing : String := "choosing"

/-- `StateTypingReply` constant from `main.go`. -/
def StateTypingReply : String := "typing_reply"

/-- `StateTypingChoice` constant from `main.go`. -/
def StateTypingChoice : String := "typing_choice"

/-- `UserState` struct from `main.go`: the conversation state of one user. -/
structure UserState where
  State : String
  Data : List (String × String)
  Choice : String
deriving Repr, DecidableEq

/-- Go map read `data[k]` on the association-list embedding. -/
def mapGet : List (String × String) → String → Option String
  | [], _ => none
  | (k', v') :: rest, k => if k' = k then some v' else mapGet rest k

/-- Go map write `data[k] = v` on the association-list embedding:
updates in place, otherwise appends. -/
def mapSet : List (String × String) → String → String → List (String × String)
  | [], k, v => [(k, v)]
  | (k', v') :: rest, k, v =>
      if k' = k then (k, v) :: rest else (k', v') :: mapSet rest k v

/-- Model of Go `strings.ToLower` (character-wise lower-casing). -/
def goToLower (s : String) : String := ⟨s.data.map Char.toLower⟩

/-- Modelled from the spec: the "trimmed" normalization the specification
claims for stored keys and values (Go `strings.TrimSpace`, leading and
trailing whitespace removed).  The source code never trims, so this
definition exists only to compare the wording of the spec against the code. -/
def goTrimSpace (s : String) : String :=
  ⟨((s.data.dropWhile Char.isWhitespace).reverse.dropWhile Char.isWhitespace).reverse⟩

/-- `NewUserState` from `main.go`: fresh session (state `choosing`,
empty data, zero-valued `Choice`). -/
def NewUserState : UserState :=
  { State := StateChoosing, Data := [], Choice := "" }

/-- `factsToStr` from `main.go`: formats the stored facts. -/
def factsToStr (data : List (String × String)) : String :=
  if data = [] then "\n\n"
  else "\n" ++ String.intercalate "\n" (data.map fun p => p.1 ++ " - " ++ p.2) ++ "\n"

/-- `UserState.HandleCommandStart` from `main.go`: behaviour of `/start`.
Returns the updated session and the reply text. -/
def UserState.HandleCommandStart (u : UserState) : UserState × String :=
  let reply :=
    if u.Data.length > 0 then
      "Hi! My name is Doctor Botter." ++ " You already told me your " ++
        String.intercalate ", " (u.Data.map Prod.fst) ++
        ". Why don\u0027t you tell me something more about yourself? Or change anything I already know."
    else
      "Hi! My name is Doctor Botter." ++
        " I will hold a more complex conversation with you. Why don\u0027t you tell me something about yourself?"
  ({ u with State := StateChoosing }, reply)

/-- `UserState.HandleShowData` from `main.go`: behaviour of `/show_data`.
The Go method reads `u.Data` and mutates nothing. -/
def UserState.HandleShowData (u : UserState) : UserState × String :=
  (u, "This is what you already told me: " ++ factsToStr u.Data)

/-- `UserState.HandleShowData` with the iteration order of the `range`
loop inside `factsToStr` made explicit.  Go map iteration order is
unspecified and randomized per loop, so each call may observe the entries
of `u.Data` in any permutation `perm` of the map contents; the reply
renders the facts in that observed order.  `HandleShowData` above is the
special case `perm = u.Data`. -/
def UserState.HandleShowDataOrd (u : UserState) (perm : List (String × String)) :
    UserState × String :=
  (u, "This is what you already told me: " ++ factsToStr perm)

/-- `handleChoosing` from `main.go`. Result: (session, reply, withKeyboard, done). -/
def UserState.handleChoosing (u : UserState) (text : String) :
    UserState × String × Bool × Bool :=
  if text = "Age" ∨ text = "Favourite colour" ∨ text = "Number of siblings" then
    let choice := goToLower text
    let u' := { u with Choice := choice }
    match mapGet u'.Data choice with
    | some existing =>
        (u', "Your " ++ choice ++ "? I already know the following about that: " ++ existing,
          false, false)
    | none =>
        ({ u' with State := StateTypingReply },
          "Your " ++ choice ++ "? Yes, I would love to hear about that!", false, false)
  else if text = "Something else..." then
    ({ u with State := StateTypingChoice },
      "Alright, please send me the category first, for example \"Most impressive skill\"",
      false, false)
  else
    (u, "Please choose one of the options on the keyboard or type \"Done\".", true, false)

/-- `handleTypingChoice` from `main.go`: the user sent a custom category name. -/
def UserState.handleTypingChoice (u : UserState) (text : String) :
    UserState × String × Bool × Bool :=
  let choice := goToLower text
  let u' := { u with Choice := choice }
  match mapGet u'.Data choice with
  | some existing =>
      ({ u' with State := StateTypingReply },
        "Your " ++ choice ++ "? I already know the following about that: " ++ existing,
        false, false)
  | none =>
      ({ u' with State := StateTypingReply },
        "Your " ++ choice ++ "? Yes, I would love to hear about that!", false, false)

/-- `handleTypingReply` from `main.go`: the user sent a value for the
pending category (with a defensive branch for an empty `Choice`). -/
def UserState.handleTypingReply (u : UserState) (text : String) :
    UserState × String × Bool × Bool :=
  if u.Choice = "" then
    ({ u with State := StateChoosing },
      "I am not sure what category this belongs to. Please choose one of the options.",
      true, false)
  else
    let u' := { u with Data := mapSet u.Data u.Choice (goToLower text),
                       Choice := "", State := StateChoosing }
    (u', "Neat! Just so you know, this is what you already told me:" ++
      factsToStr u'.Data ++
      "You can tell me more, or change your opinion on something.", true, false)

/-- `UserState.HandleText` from `main.go`: plain-text dispatch.
`"Done"` pre-empts every state; otherwise dispatch on `State`, treating an
unknown state as `choosing`. -/
def UserState.HandleText (u : UserState) (text : String) :
    UserState × String × Bool × Bool :=
  if text = "Done" then
    ({ u with Choice := "", State := "" },
      "I learned these facts about you: " ++ factsToStr u.Data ++ "Until next time!",
      false, true)
  else if u.State = StateChoosing then u.handleChoosing text
  else if u.State = StateTypingChoice then u.handleTypingChoice text
  else if u.State = StateTypingReply then u.handleTypingReply text
  else ({ u with State := StateChoosing }).handleChoosing text

/-- The UI hint the dispatcher attaches to an outbound message. -/
inductive UiHint where
  | noHint
  | showKeyboard
  | removeKeyboard
deriving Repr, DecidableEq

/-- Keyboard decision of `handleMessage` in `main.go` for a free-text
message: `done` forces `RemoveKeyboard`; otherwise `withKeyboard` shows
the main keyboard. -/
def messageUiHint (withKeyboard done : Bool) : UiHint :=
  if done then .removeKeyboard else if withKeyboard then .showKeyboard else .noHint

/-- The free-text path of `handleMessage` in `main.go`: runs `HandleText`
and derives the UI hint. Result: (session, reply, uiHint, finished). -/
def handleTextMessage (u : UserState) (text : String) :
    UserState × String × UiHint × Bool :=
  let r := u.HandleText text
  (r.1, r.2.1, messageUiHint r.2.2.1 r.2.2.2, r.2.2.2)

/-- A public operation on a session, as dispatched by `handleMessage`. -/
inductive Op where
  | greet
  | showFacts
  | text (s : String)

/-- Apply one public operation to a session. -/
def applyOp (u : UserState) : Op → UserState
  | .greet => u.HandleCommandStart.1
  | .showFacts => u.HandleShowData.1
  | .text s => (u.HandleText s).1

/-- Run a sequence of public operations on a session. -/
def runOps (u : UserState) : List Op → UserState
  | [] => u
  | o :: os => runOps (applyOp u o) os

/-- `pat` occurs as a contiguous substring of `s`. -/
abbrev strContains (s pat : String) : Prop := pat.data <:+: s.data

/-!
Persistence layer (`Storage` in `main.go`).  `Save` marshals the full
collection with `encoding/json` and writes it via a temporary file plus an
atomic rename; `Load` reads the snapshot file, treats a missing file as an
empty collection, and propagates read errors and unmarshal errors.
The JSON document is embedded as a structured tree (`Json`); a present but
syntactically invalid file is `FileRead.present none`.  The collection
`map[int64]*UserState` is an association list `List (Int × UserState)`
(entries non-nil, as the program itself only ever stores non-nil sessions).
-/

/-- JSON values occurring in the snapshot schema. -/
inductive Json where
  | null
  | str (s : String)
  | obj (fields : List (String × Json))

/-- Field lookup in a JSON object, as `encoding/json` matches keys. -/
def jLookup : List (String × Json) → String → Option Json
  | [], _ => none
  | (k', v) :: rest, k => if k' = k then some v else jLookup rest k

/-- A decimal digit character to its value (`'0'`–`'9'`). -/
def digitOfChar (c : Char) : Option Nat :=
  if '0' ≤ c ∧ c ≤ '9' then some (c.toNat - '0'.toNat) else none

/-- Value of a big-endian digit list. -/
def bigEndianVal (ds : List Nat) : Nat := ds.foldl (fun a d => 10 * a + d) 0

/-- Read every character as a decimal digit. -/
def digitsOfChars : List Char → Option (List Nat)
  | [] => some []
  | c :: t =>
      match digitOfChar c, digitsOfChars t with
      | some d, some ds => some (d :: ds)
      | _, _ => none

/-- Parse a non-empty all-digit character list as a natural number
(the digit part of `encoding/json` map-key decoding for `int64` keys). -/
def parseNatChars (cs : List Char) : Option Nat :=
  if cs = [] then none else (digitsOfChars cs).map bigEndianVal

/-- Decimal rendering of a natural number, as `encoding/json` writes
integer map keys. -/
def natKey (n : Nat) : String :=
  if n = 0 then "0" else ⟨((Nat.digits 10 n).map Nat.digitChar).reverse⟩

/-- Decimal rendering of an `int64` map key. -/
def intKey (i : Int) : String :=
  if i < 0 then "-" ++ natKey i.natAbs else natKey i.natAbs

/-- Parse an optional leading minus sign followed by decimal digits. -/
def parseIntChars : List Char → Option Int
  | [] => none
  | c :: cs =>
      if c = '-' then (parseNatChars cs).map fun n => -(n : Int)
      else (parseNatChars (c :: cs)).map fun n => (n : Int)

/-- Parse an `int64` map key back from its decimal string. -/
def parseIntKey (s : String) : Option Int := parseIntChars s.data

/-- Marshal the `Data` map (`map[string]string`). -/
def encodeData (d : List (String × String)) : List (String × Json) :=
  d.map fun p => (p.1, .str p.2)

/-- Unmarshal the `Data` map: every field must be a string. -/
def decodeData : List (String × Json) → Option (List (String × String))
  | [] => some []
  | (k, .str v) :: rest => (decodeData rest).map fun t => (k, v) :: t
  | _ => none

/-- Marshal one `UserState` with its `json` tags
(`state`, `data`, `choice`, in struct order). -/
def encodeUser (u : UserState) : Json :=
  .obj [("state", .str u.State), ("data", .obj (encodeData u.Data)),
        ("choice", .str u.Choice)]

/-- Read a string-typed struct field as `encoding/json` does: a missing
field or a JSON `null` leaves the zero value `""`. -/
def getStrField (fields : List (String × Json)) (name : String) : Option String :=
  match jLookup fields name with
  | none => some ""
  | some .null => some ""
  | some (.str s) => some s
  | some (.obj _) => none

/-- Read the `data` map field as `encoding/json` does: a missing field or
a JSON `null` leaves the zero (empty) map. -/
def getDataField (fields : List (String × Json)) (name : String) :
    Option (List (String × String)) :=
  match jLookup fields name with
  | none => some []
  | some .null => some []
  | some (.obj l) => decodeData l
  | some (.str _) => none

/-- Unmarshal one `UserState`. -/
def decodeUser : Json → Option UserState
  | .obj fields => do
      let s ← getStrField fields "state"
      let d ← getDataField fields "data"
      let c ← getStrField fields "choice"
      pure ⟨s, d, c⟩
  | _ => none

/-- Marshal the `users` map of `persistedData`. -/
def encodeUsers (users : List (Int × UserState)) : List (String × Json) :=
  users.map fun p => (intKey p.1, encodeUser p.2)

/-- Unmarshal the `users` map of `persistedData`. -/
def decodeUsers : List (String × Json) → Option (List (Int × UserState))
  | [] => some []
  | (k, j) :: rest => do
      let i ← parseIntKey k
      let u ← decodeUser j
      let t ← decodeUsers rest
      pure ((i, u) :: t)

/-- Marshal `persistedData` (`{"users": {...}}`), as `Storage.Save` writes it. -/
def marshalPersisted (users : List (Int × UserState)) : Json :=
  .obj [("users", .obj (encodeUsers users))]

/-- Unmarshal `persistedData`, as `Storage.Load` reads it.  `Load`
pre-initialises `Users` to an empty map, so a top-level `null`, a missing
`users` field or a `null` one all leave the collection empty (the source
additionally replaces a `nil` map by an empty one, lines 184–186). -/
def unmarshalPersisted : Json → Option (List (Int × UserState))
  | .null => some []
  | .obj fields =>
      match jLookup fields "users" with
      | none => some []
      | some .null => some []
      | some (.obj l) => decodeUsers l
      | some (.str _) => none
  | .str _ => none

/-- Outcome of reading the snapshot file (`os.ReadFile` plus JSON syntax):
missing file, other read error, or present content (`none` when the bytes
are not syntactically valid JSON). -/
inductive FileRead where
  | missing
  | readErr
  | present (parsed : Option Json)

/-- Errors `Storage.Load` can return. -/
inductive LoadError where
  | ioError
  | corrupt
deriving Repr, DecidableEq

namespace Storage

/-- `Storage.Load` from `main.go`: a missing file yields the empty
collection with no error; a read error propagates; content that fails to
parse or unmarshal yields a corrupt-snapshot error. -/
def Load : FileRead → Except LoadError (List (Int × UserState))
  | .missing => .ok []
  | .readErr => .error .ioError
  | .present none => .error .corrupt
  | .present (some j) =>
      match unmarshalPersisted j with
      | none => .error .corrupt
      | some users => .ok users

/-- `Storage.Save` from `main.go`, viewed through the snapshot it leaves on
disk after the atomic rename: the marshalled collection. -/
def Save (users : List (Int × UserState)) : FileRead :=
  .present (some (marshalPersisted users))

end Storage

/-! ### Helper lemmas -/

lemma goToLower_ne_empty {s : String} (h : s ≠ "") : goToLower s ≠ "" := by
  intro hc
  apply h
  have hd := congrArg String.data hc
  cases s with
  | mk d =>
    cases d with
    | nil => rfl
    | cons c cs => simp [goToLower] at hd

lemma mapGet_mapSet_self (m : List (String × String)) (k v : String) :
    mapGet (mapSet m k v) k = some v := by
  induction m with
  | nil => simp [mapGet, mapSet]
  | cons p t ih =>
      obtain ⟨k', v'⟩ := p
      by_cases h : k' = k
      · simp [mapGet, mapSet, h]
      · simp [mapGet, mapSet, h, ih]

lemma mapGet_mapSet_ne (m : List (String × String)) (k v k' : String) (h : k' ≠ k) :
    mapGet (mapSet m k v) k' = mapGet m k' := by
  have h2 : ¬k = k' := fun hc => h hc.symm
  induction m with
  | nil => simp [mapGet, mapSet, h2]
  | cons p t ih =>
      obtain ⟨k₀, v₀⟩ := p
      by_cases h0 : k₀ = k
      · subst h0
        simp [mapGet, mapSet, h2]
      · by_cases h1 : k₀ = k'
        · simp [mapGet, mapSet, h0, h1, h]
        · simp [mapGet, mapSet, h0, h1, ih]

lemma handleChoosing_inv (u : UserState) (s : String) (h : u.State = StateChoosing) :
    (u.handleChoosing s).1.State = StateTypingReply → (u.handleChoosing s).1.Choice ≠ "" := by
  unfold UserState.handleChoosing
  by_cases hp : s = "Age" ∨ s = "Favourite colour" ∨ s = "Number of siblings"
  · rw [if_pos hp]
    cases hm : mapGet u.Data (goToLower s) with
    | some v => simp [hm, h, StateChoosing, StateTypingReply]
    | none =>
        intro _
        rcases hp with h1 | h1 | h1 <;> subst h1 <;> simp [hm] <;> decide
  · rw [if_neg hp]
    by_cases hq : s = "Something else..."
    · simp [hq, StateTypingChoice, StateTypingReply]
    · simp [hq, h, StateChoosing, StateTypingReply]

lemma handleTypingChoice_inv (u : UserState) (s : String) (hs : s ≠ "") :
    (u.handleTypingChoice s).1.Choice ≠ "" := by
  unfold UserState.handleTypingChoice
  cases hm : mapGet u.Data (goToLower s) with
  | some v => simp [hm]; exact goToLower_ne_empty hs
  | none => simp [hm]; exact goToLower_ne_empty hs

lemma handleTypingReply_state (u : UserState) (s : String) :
    (u.handleTypingReply s).1.State = StateChoosing := by
  unfold UserState.handleTypingReply
  by_cases hc : u.Choice = "" <;> simp [hc]

lemma inv_step_text (u : UserState) (s : String) (hs : s ≠ "") :
    (u.HandleText s).1.State = StateTypingReply → (u.HandleText s).1.Choice ≠ "" := by
  unfold UserState.HandleText
  by_cases hd : s = "Done"
  · simp [hd, StateTypingReply]
  · rw [if_neg hd]
    by_cases h1 : u.State = StateChoosing
    · rw [if_pos h1]; exact handleChoosing_inv u s h1
    · rw [if_neg h1]
      by_cases h2 : u.State = StateTypingChoice
      · rw [if_pos h2]; intro _; exact handleTypingChoice_inv u s hs
      · rw [if_neg h2]
        by_cases h3 : u.State = StateTypingReply
        · rw [if_pos h3]
          intro hcontra
          rw [handleTypingReply_state u s] at hcontra
          exact absurd hcontra (by decide)
        · rw [if_neg h3]
          exact handleChoosing_inv _ s rfl

lemma inv_step (u : UserState) (o : Op) (ho : ∀ s, o = Op.text s → s ≠ "")
    (hu : u.State = StateTypingReply → u.Choice ≠ "") :
    (applyOp u o).State = StateTypingReply → (applyOp u o).Choice ≠ "" := by
  cases o with
  | greet =>
      intro hcontra
      have : (applyOp u Op.greet).State = StateChoosing := rfl
      rw [this] at hcontra
      exact absurd hcontra (by decide)
  | showFacts => exact hu
  | text s => exact inv_step_text u s (ho s rfl)

lemma inv_run (u : UserState) (ops : List Op) (hops : ∀ s, Op.text s ∈ ops → s ≠ "")
    (hu : u.State = StateTypingReply → u.Choice ≠ "") :
    (runOps u ops).State = StateTypingReply → (runOps u ops).Choice ≠ "" := by
  induction ops generalizing u with
  | nil => exact hu
  | cons o t ih =>
      exact ih (applyOp u o)
        (fun s hs => hops s (List.mem_cons_of_mem o hs))
        (inv_step u o (fun s hso => hops s (hso ▸ List.mem_cons_self o t)) hu)

lemma digitOfChar_digitChar : ∀ d : Nat, d < 10 → digitOfChar (Nat.digitChar d) = some d := by
  decide

lemma digitChar_ne_dash : ∀ d : Nat, d < 10 → Nat.digitChar d ≠ '-' := by
  decide

lemma digitsOfChars_map (L : List Nat) (h : ∀ d ∈ L, d < 10) :
    digitsOfChars (L.map Nat.digitChar) = some L := by
  induction L with
  | nil => rfl
  | cons d t ih =>
      have hd : d < 10 := h d (List.mem_cons_self d t)
      have ht : ∀ x ∈ t, x < 10 := fun x hx => h x (List.mem_cons_of_mem d hx)
      simp [digitsOfChars, digitOfChar_digitChar d hd, ih ht]

lemma bigEndianVal_reverse (L : List Nat) : bigEndianVal L.reverse = Nat.ofDigits 10 L := by
  induction L with
  | nil => rfl
  | cons d t ih =>
      rw [List.reverse_cons]
      unfold bigEndianVal at ih ⊢
      rw [List.foldl_append, ih]
      simp [Nat.ofDigits_cons]
      ring

lemma parseNatChars_natKey (n : Nat) : parseNatChars (natKey n).data = some n := by
  by_cases h0 : n = 0
  · subst h0; decide
  · unfold natKey
    rw [if_neg h0]
    show parseNatChars ((Nat.digits 10 n).map Nat.digitChar).reverse = some n
    rw [← List.map_reverse]
    unfold parseNatChars
    have hne : (Nat.digits 10 n).reverse.map Nat.digitChar ≠ [] := by
      simp [Nat.digits_ne_nil_iff_ne_zero.mpr h0]
    rw [if_neg hne]
    rw [digitsOfChars_map _ (fun d hd => Nat.digits_lt_base (by norm_num) (List.mem_reverse.mp hd))]
    have := bigEndianVal_reverse (Nat.digits 10 n)
    simp [this, Nat.ofDigits_digits]

lemma natKey_data_ne_dash (n : Nat) : ∀ c ∈ (natKey n).data, c ≠ '-' := by
  by_cases h0 : n = 0
  · subst h0; decide
  · unfold natKey
    rw [if_neg h0]
    intro c hc
    replace hc : c ∈ ((Nat.digits 10 n).map Nat.digitChar).reverse := hc
    rw [List.mem_reverse] at hc
    obtain ⟨d, hd, rfl⟩ := List.mem_map.mp hc
    exact digitChar_ne_dash d (Nat.digits_lt_base (by norm_num) hd)

lemma stringDataAppend (s t : String) : (s ++ t).data = s.data ++ t.data := by
  cases s; cases t; rfl

lemma natKey_data_ne_nil (n : Nat) : (natKey n).data ≠ [] := by
  by_cases h0 : n = 0
  · subst h0; decide
  · unfold natKey
    rw [if_neg h0]
    show ((Nat.digits 10 n).map Nat.digitChar).reverse ≠ []
    simp [Nat.digits_ne_nil_iff_ne_zero.mpr h0]

lemma parseIntKey_intKey (i : Int) : parseIntKey (intKey i) = some i := by
  unfold intKey parseIntKey
  by_cases hneg : i < 0
  · rw [if_pos hneg, stringDataAppend]
    show parseIntChars ('-' :: (natKey i.natAbs).data) = some i
    simp [parseIntChars, parseNatChars_natKey, abs_of_neg hneg]
  · rw [if_neg hneg]
    cases h : (natKey i.natAbs).data with
    | nil => exact absurd h (natKey_data_ne_nil _)
    | cons c cs =>
        have hc : c ≠ '-' := natKey_data_ne_dash i.natAbs c (h ▸ List.mem_cons_self c cs)
        have key : parseIntChars (c :: cs) = (parseNatChars (c :: cs)).map fun n => (n : Int) := by
          simp [parseIntChars, hc]
        rw [key]
        rw [← h]
        rw [parseNatChars_natKey]
        simp
        omega

lemma decodeData_encodeData (d : List (String × String)) :
    decodeData (encodeData d) = some d := by
  induction d with
  | nil => rfl
  | cons p t ih =>
      obtain ⟨k, v⟩ := p
      simp [encodeData, decodeData] at ih ⊢
      simp [ih]

lemma decodeUser_encodeUser (u : UserState) : decodeUser (encodeUser u) = some u := by
  simp [decodeUser, encodeUser, getStrField, getDataField, jLookup,
    decodeData_encodeData]

lemma decodeUsers_encodeUsers (users : List (Int × UserState)) :
    decodeUsers (encodeUsers users) = some users := by
  induction users with
  | nil => rfl
  | cons p t ih =>
      obtain ⟨i, u⟩ := p
      simp [encodeUsers, decodeUsers, parseIntKey_intKey, decodeUser_encodeUser] at ih ⊢
      simp [ih]

lemma handleChoosing_data (u : UserState) (s : String) :
    (u.handleChoosing s).1.Data = u.Data := by
  unfold UserState.handleChoosing
  by_cases hp : s = "Age" ∨ s = "Favourite colour" ∨ s = "Number of siblings"
  · rw [if_pos hp]
    cases hm : mapGet u.Data (goToLower s) <;> simp [hm]
  · rw [if_neg hp]
    by_cases hq : s = "Something else..." <;> simp [hq]

lemma handleTypingChoice_result (u : UserState) (s : String) :
    (u.handleTypingChoice s).1 =
      { u with State := StateTypingReply, Choice := goToLower s } := by
  unfold UserState.handleTypingChoice
  cases hm : mapGet u.Data (goToLower s) <;> simp [hm]

/-! ### Claim theorems -/

/-- C1, counterexample: the claimed biconditional invariant
(`Choice` non-empty ⇔ `state = typing_reply`) fails on a reachable
session.  From a fresh session, the text sequence `"Age"`, `"30"`,
`"Age"` re-sends an already-known preset category: `handleChoosing`
assigns `u.Choice` before checking whether the category is known, so the
session ends with `Choice = "age"` while `State` stays `"choosing"`. -/
theorem C1_counterexample :
    (((NewUserState.HandleText "Age").1.HandleText "30").1.HandleText "Age").1.Choice ≠ "" ∧
    (((NewUserState.HandleText "Age").1.HandleText "30").1.HandleText "Age").1.State ≠
      StateTypingReply := by
  decide

/-- C1, amended: for every sequence of public operations with non-empty
text inputs (the dispatcher drops empty text before calling `HandleText`)
starting from a fresh session, `state = typing_reply` implies
`pendingCategory` (`Choice`) is non-empty.  Only this direction of the
claimed biconditional holds. -/
theorem C1_amended (ops : List Op) (hops : ∀ s, Op.text s ∈ ops → s ≠ "") :
    (runOps NewUserState ops).State = StateTypingReply →
      (runOps NewUserState ops).Choice ≠ "" :=
  inv_run NewUserState ops hops (by decide)

/-- C1, witness: the amended invariant instantiated on a concrete
operation sequence that really ends in `typing_reply` (fresh session,
greet, then the preset label `"Age"`), so the implication is exercised
non-vacuously: the final session has `State = "typing_reply"` and
`Choice = "age"`. -/
theorem C1_amended_witness :
    (∀ s, Op.text s ∈ [Op.greet, Op.text "Age"] → s ≠ "") ∧
    (runOps NewUserState [Op.greet, Op.text "Age"]).State = StateTypingReply ∧
    (runOps NewUserState [Op.greet, Op.text "Age"]).Choice ≠ "" := by
  refine ⟨?_, by decide, ?_⟩
  · intro s hs
    simp at hs
    subst hs
    decide
  · exact C1_amended [Op.greet, Op.text "Age"] (by
      intro s hs
      simp at hs
      subst hs
      decide) (by decide)

/-- C2: in every session state, the text `"Done"` clears `Choice`, sets
`State` to `""` (how the code represents the terminated dialogue),
returns `finished = true`, makes the dispatcher signal `RemoveKeyboard`,
and replies by restating all known facts between the learned-facts
preamble and the farewell; the reply contains
"I learned these facts about you". -/
theorem C2_done (u : UserState) :
    (handleTextMessage u "Done").1.Choice = "" ∧
    (handleTextMessage u "Done").1.State = "" ∧
    (handleTextMessage u "Done").2.2.2 = true ∧
    (handleTextMessage u "Done").2.2.1 = UiHint.removeKeyboard ∧
    (handleTextMessage u "Done").2.1 =
      "I learned these facts about you: " ++ factsToStr u.Data ++ "Until next time!" ∧
    strContains (handleTextMessage u "Done").2.1 "I learned these facts about you" := by
  refine ⟨rfl, rfl, rfl, rfl, rfl, ?_⟩
  show strContains
    ("I learned these facts about you: " ++ factsToStr u.Data ++ "Until next time!")
    "I learned these facts about you"
  refine ⟨[], (": ".data ++ ((factsToStr u.Data).data ++ "Until next time!".data)), ?_⟩
  cases factsToStr u.Data
  rfl

/-- C3: saving any collection of user sessions and loading the resulting
snapshot yields the identical collection — the same user-identifier keys
and, per user, the same state, choice and data. -/
theorem C3_roundtrip (users : List (Int × UserState)) :
    Storage.Load (Storage.Save users) = Except.ok users := by
  simp [Storage.Load, Storage.Save, marshalPersisted, unmarshalPersisted, jLookup,
    decodeUsers_encodeUsers]

/-- C4: `Load` on a missing snapshot file returns the empty collection
with no error, while a present-but-unparsable snapshot (either invalid
JSON text or JSON that does not decode to the schema) returns a corrupt
error instead of a partial or empty collection. -/
theorem C4_load_errors (j : Json) (h : unmarshalPersisted j = none) :
    Storage.Load FileRead.missing = Except.ok [] ∧
    Storage.Load (FileRead.present none) = Except.error LoadError.corrupt ∧
    Storage.Load (FileRead.present (some j)) = Except.error LoadError.corrupt := by
  refine ⟨rfl, rfl, ?_⟩
  simp [Storage.Load, h]

/-- C4, witness: a concrete non-schema snapshot makes `Load` fail with the
corrupt error. -/
theorem C4_witness :
    unmarshalPersisted (Json.str "this is not a snapshot") = none ∧
    Storage.Load (FileRead.present (some (Json.str "this is not a snapshot"))) =
      Except.error LoadError.corrupt :=
  ⟨rfl, (C4_load_errors (Json.str "this is not a snapshot") rfl).2.2⟩

/-- C5, counterexample: stored keys are not trimmed.  From a fresh
session, choosing the custom-category path and sending `" Age "` then
`"30"` stores the key `" age "`, which differs from the lower-cased
trimmed form `"age"` the claim requires. -/
theorem C5_counterexample :
    ((((NewUserState.HandleText "Something else...").1.HandleText " Age ").1.HandleText
        "30").1).Data = [(" age ", "30")] ∧
    " age " ≠ goToLower (goTrimSpace " Age ") := by
  decide

/-- C5, amended: every key stored through the custom-category path is the
lower-cased (but not trimmed) form of the category text the user sent,
and every stored value is the lower-cased (but not trimmed) form of the
value text; in particular `"Age"` and `"AGE"` collapse to the same key
because their lower-cased forms coincide. -/
theorem C5_amended (u : UserState) (text value : String)
    (hstate : u.State = StateTypingChoice) (ht : text ≠ "Done") (ht0 : text ≠ "")
    (hv : value ≠ "Done") :
    mapGet (((u.HandleText text).1.HandleText value).1).Data (goToLower text) =
      some (goToLower value) ∧
    goToLower "Age" = goToLower "AGE" := by
  refine ⟨?_, by decide⟩
  have step1 : (u.HandleText text).1 =
      { u with State := StateTypingReply, Choice := goToLower text } := by
    unfold UserState.HandleText
    rw [if_neg ht, if_neg (by rw [hstate]; decide), if_pos hstate]
    exact handleTypingChoice_result u text
  have hchoice : goToLower text ≠ "" := goToLower_ne_empty ht0
  have step2 : (({ u with State := StateTypingReply, Choice := goToLower text } :
      UserState).HandleText value).1.Data =
      mapSet u.Data (goToLower text) (goToLower value) := by
    have hn1 : ¬(({ u with State := StateTypingReply, Choice := goToLower text } :
        UserState).State = StateChoosing) := by
      intro h
      simp [StateTypingReply, StateChoosing] at h
    have hn2 : ¬(({ u with State := StateTypingReply, Choice := goToLower text } :
        UserState).State = StateTypingChoice) := by
      intro h
      simp [StateTypingReply, StateTypingChoice] at h
    unfold UserState.HandleText
    rw [if_neg hv, if_neg hn1, if_neg hn2, if_pos rfl]
    unfold UserState.handleTypingReply
    rw [if_neg hchoice]
  rw [step1, step2]
  exact mapGet_mapSet_self u.Data (goToLower text) (goToLower value)

/-- C5, witness: sending `"AGE"` then `"30"` through the custom-category
path stores value `"30"` under the key `goToLower "AGE"` = `"age"`. -/
theorem C5_amended_witness :
    mapGet ((((⟨StateTypingChoice, [], ""⟩ : UserState).HandleText "AGE").1.HandleText
        "30").1).Data (goToLower "AGE") = some (goToLower "30") ∧
    goToLower "Age" = goToLower "AGE" :=
  C5_amended ⟨StateTypingChoice, [], ""⟩ "AGE" "30" rfl (by decide) (by decide) (by decide)

/-- C6: in `Choosing`, re-sending a preset category whose normalized form
is already known replies with the existing value and stays in `Choosing`
(no transition to `typing_reply`), while the same already-known category
sent in `typing_choice` (the custom path) transitions to `typing_reply`
with `Choice` set. -/
theorem C6_known_category (u : UserState) (label v : String)
    (hstate : u.State = StateChoosing)
    (hlabel : label = "Age" ∨ label = "Favourite colour" ∨ label = "Number of siblings")
    (hknown : mapGet u.Data (goToLower label) = some v)
    (u' : UserState) (text w : String)
    (htc : u'.State = StateTypingChoice)
    (hknown' : mapGet u'.Data (goToLower text) = some w)
    (hne : text ≠ "Done") :
    (u.HandleText label).1.State = StateChoosing ∧
    (u.HandleText label).2.1 =
      "Your " ++ goToLower label ++ "? I already know the following about that: " ++ v ∧
    (u'.HandleText text).1.State = StateTypingReply ∧
    (u'.HandleText text).1.Choice = goToLower text := by
  have hld : label ≠ "Done" := by rcases hlabel with h | h | h <;> subst h <;> decide
  have h1 : u.HandleText label = u.handleChoosing label := by
    unfold UserState.HandleText
    rw [if_neg hld, if_pos hstate]
  have h2 : u'.HandleText text = u'.handleTypingChoice text := by
    unfold UserState.HandleText
    rw [if_neg hne, if_neg (by rw [htc]; decide), if_pos htc]
  refine ⟨?_, ?_, ?_, ?_⟩
  · rw [h1]
    unfold UserState.handleChoosing
    rw [if_pos hlabel]
    simp [hknown, hstate]
  · rw [h1]
    unfold UserState.handleChoosing
    rw [if_pos hlabel]
    simp [hknown]
  · rw [h2, handleTypingChoice_result]
  · rw [h2, handleTypingChoice_result]

/-- C6, witness: with `"age"` already known, the preset label `"Age"`
stays in `Choosing` and surfaces the value, while the custom path
transitions to `typing_reply`. -/
theorem C6_witness :
    ((⟨StateChoosing, [("age", "30")], ""⟩ : UserState).HandleText "Age").1.State =
      StateChoosing ∧
    ((⟨StateChoosing, [("age", "30")], ""⟩ : UserState).HandleText "Age").2.1 =
      "Your " ++ goToLower "Age" ++ "? I already know the following about that: " ++ "30" ∧
    ((⟨StateTypingChoice, [("age", "30")], ""⟩ : UserState).HandleText "Age").1.State =
      StateTypingReply ∧
    ((⟨StateTypingChoice, [("age", "30")], ""⟩ : UserState).HandleText "Age").1.Choice =
      goToLower "Age" := by
  exact C6_known_category ⟨StateChoosing, [("age", "30")], ""⟩ "Age" "30" rfl
    (Or.inl rfl) (by decide) ⟨StateTypingChoice, [("age", "30")], ""⟩ "Age" "30" rfl
    (by decide) (by decide)

/-- C7: in `typing_reply` with empty `Choice`, any non-`"Done"` text
reverts the session to `Choosing`, replies with the error-guidance
message, signals `ShowKeyboard`, reports `finished = false`, and leaves
the facts unchanged — the defensive case is recovered locally, no error
is propagated (`HandleText` is total and returns a normal reply). -/
theorem C7_invalid_transition (u : UserState) (text : String)
    (h1 : u.State = StateTypingReply) (h2 : u.Choice = "") (h3 : text ≠ "Done") :
    handleTextMessage u text =
      ({ u with State := StateChoosing },
       "I am not sure what category this belongs to. Please choose one of the options.",
       UiHint.showKeyboard, false) := by
  have hne1 : ¬u.State = StateChoosing := by rw [h1]; decide
  have hne2 : ¬u.State = StateTypingChoice := by rw [h1]; decide
  simp [handleTextMessage, UserState.HandleText, UserState.handleTypingReply,
    messageUiHint, h1, h2, h3, hne1, hne2, StateChoosing, StateTypingReply, StateTypingChoice]

/-- C7, witness: the defensive branch on a concrete session. -/
theorem C7_witness :
    handleTextMessage ⟨StateTypingReply, [("age", "30")], ""⟩ "blue" =
      (⟨StateChoosing, [("age", "30")], ""⟩,
       "I am not sure what category this belongs to. Please choose one of the options.",
       UiHint.showKeyboard, false) :=
  C7_invalid_transition ⟨StateTypingReply, [("age", "30")], ""⟩ "blue" rfl rfl (by decide)

/-- C8, counterexample: the identical-replies half of the claim is not
guaranteed by the program.  Go map iteration order is unspecified and
randomized per `range` loop, so on a session with the two facts
`("a", "1")` and `("b", "2")` one `HandleShowData` call may observe the
order `[("a", "1"), ("b", "2")]` and the next the (equally valid)
permuted order `[("b", "2"), ("a", "1")]`; the two replies differ, while
the session is unchanged either way. -/
theorem C8_counterexample :
    ([("b", "2"), ("a", "1")] : List (String × String)).Perm [("a", "1"), ("b", "2")] ∧
    ((⟨StateChoosing, [("a", "1"), ("b", "2")], ""⟩ : UserState).HandleShowDataOrd
        [("a", "1"), ("b", "2")]).2 ≠
      ((⟨StateChoosing, [("a", "1"), ("b", "2")], ""⟩ : UserState).HandleShowDataOrd
        [("b", "2"), ("a", "1")]).2 ∧
    ((⟨StateChoosing, [("a", "1"), ("b", "2")], ""⟩ : UserState).HandleShowDataOrd
        [("b", "2"), ("a", "1")]).1 = ⟨StateChoosing, [("a", "1"), ("b", "2")], ""⟩ :=
  ⟨List.Perm.swap ("a", "1") ("b", "2") [], by decide, rfl⟩

/-- C8, amended: `HandleShowData` is a pure read — every call, whatever
iteration order it observes, returns the session (state, choice and
facts) unchanged — but consecutive calls yield byte-identical replies
only when the facts mapping has at most one entry (or when both calls
happen to observe the same order); with two or more facts the per-call
map iteration order makes reply identity not guaranteed. -/
theorem C8_amended (u : UserState) (p1 p2 : List (String × String))
    (h1 : p1.Perm u.Data) (h2 : p2.Perm u.Data) :
    (u.HandleShowDataOrd p1).1 = u ∧
    ((u.HandleShowDataOrd p1).1.HandleShowDataOrd p2).1.Data = u.Data ∧
    (u.Data.length ≤ 1 →
      (u.HandleShowDataOrd p1).2 = ((u.HandleShowDataOrd p1).1.HandleShowDataOrd p2).2) := by
  refine ⟨rfl, rfl, ?_⟩
  intro hlen
  have hp : p1 = p2 := by
    cases hd : u.Data with
    | nil =>
        rw [hd] at h1 h2
        rw [List.perm_nil.mp h1, List.perm_nil.mp h2]
    | cons x t =>
        cases t with
        | nil =>
            rw [hd] at h1 h2
            rw [List.perm_singleton.mp h1, List.perm_singleton.mp h2]
        | cons y t2 =>
            rw [hd] at hlen
            simp at hlen
  show (u.HandleShowDataOrd p1).2 = (u.HandleShowDataOrd p2).2
  rw [hp]

/-- C8, witness: two consecutive calls on a one-fact session, both
observing the only possible iteration order, leave the session unchanged
and return identical replies. -/
theorem C8_amended_witness :
    ((⟨StateChoosing, [("age", "30")], ""⟩ : UserState).HandleShowDataOrd [("age", "30")]).1 =
      ⟨StateChoosing, [("age", "30")], ""⟩ ∧
    (((⟨StateChoosing, [("age", "30")], ""⟩ : UserState).HandleShowDataOrd
        [("age", "30")]).1.HandleShowDataOrd [("age", "30")]).1.Data = [("age", "30")] ∧
    ([("age", "30")] : List (String × String)).length ≤ 1 ∧
    ((⟨StateChoosing, [("age", "30")], ""⟩ : UserState).HandleShowDataOrd [("age", "30")]).2 =
      (((⟨StateChoosing, [("age", "30")], ""⟩ : UserState).HandleShowDataOrd
        [("age", "30")]).1.HandleShowDataOrd [("age", "30")]).2 := by
  have h := C8_amended ⟨StateChoosing, [("age", "30")], ""⟩ [("age", "30")] [("age", "30")]
    (List.Perm.refl _) (List.Perm.refl _)
  exact ⟨h.1, h.2.1, by decide, h.2.2 (by decide)⟩

/-- C9: `HandleCommandStart` sets the state to `Choosing` from any state
(including the terminated `""`), leaves the facts (and `Choice`)
unchanged, and its reply enumerates known categories ("You already told
me your") when facts exist, otherwise invites the user ("I will hold a
more complex conversation"). -/
theorem C9_greet (u : UserState) :
    u.HandleCommandStart.1.State = StateChoosing ∧
    u.HandleCommandStart.1.Data = u.Data ∧
    u.HandleCommandStart.1.Choice = u.Choice ∧
    (u.Data ≠ [] → strContains u.HandleCommandStart.2 "You already told me your") ∧
    (u.Data = [] → strContains u.HandleCommandStart.2
      "I will hold a more complex conversation") := by
  refine ⟨rfl, rfl, rfl, ?_, ?_⟩
  · intro h
    have hl : u.Data.length > 0 := List.length_pos.mpr h
    unfold UserState.HandleCommandStart
    simp only [hl, if_pos]
    refine ⟨"Hi! My name is Doctor Botter. ".data,
      (" ".data ++ ((String.intercalate ", " (u.Data.map Prod.fst)).data ++
        ". Why don\u0027t you tell me something more about yourself? Or change anything I already know.".data)),
      ?_⟩
    cases String.intercalate ", " (u.Data.map Prod.fst)
    rfl
  · intro h
    unfold UserState.HandleCommandStart
    rw [h]
    exact (by decide :
      strContains ("Hi! My name is Doctor Botter." ++
        " I will hold a more complex conversation with you. Why don\u0027t you tell me something about yourself?")
        "I will hold a more complex conversation")

/-- C9, witness: the two reply shapes on a session with facts and on a
fresh terminated-then-greeted session. -/
theorem C9_witness :
    strContains ((⟨"", [("age", "30")], ""⟩ : UserState).HandleCommandStart).2
      "You already told me your" ∧
    strContains (NewUserState.HandleCommandStart).2
      "I will hold a more complex conversation" :=
  ⟨(C9_greet ⟨"", [("age", "30")], ""⟩).2.2.2.1 (by decide),
   (C9_greet NewUserState).2.2.2.2 rfl⟩

/-- C10: `HandleText` leaves the facts mapping unchanged unless the
session is in `typing_reply` with non-empty `Choice` and the text is not
`"Done"`; in that single case exactly the `Choice` key is set to the
lower-cased text and every other key is unchanged.  The `"Done"` branch
in particular never deletes or alters a stored fact. -/
theorem C10_frame (u : UserState) (text : String) :
    (¬(u.State = StateTypingReply ∧ u.Choice ≠ "" ∧ text ≠ "Done") →
      (u.HandleText text).1.Data = u.Data) ∧
    (u.State = StateTypingReply → u.Choice ≠ "" → text ≠ "Done" →
      mapGet (u.HandleText text).1.Data u.Choice = some (goToLower text) ∧
      ∀ k, k ≠ u.Choice → mapGet (u.HandleText text).1.Data k = mapGet u.Data k) := by
  constructor
  · intro hn
    by_cases hd : text = "Done"
    · simp [UserState.HandleText, hd]
    · unfold UserState.HandleText
      rw [if_neg hd]
      by_cases h1 : u.State = StateChoosing
      · rw [if_pos h1]
        exact handleChoosing_data u text
      · rw [if_neg h1]
        by_cases h2 : u.State = StateTypingChoice
        · rw [if_pos h2, handleTypingChoice_result]
        · rw [if_neg h2]
          by_cases h3 : u.State = StateTypingReply
          · rw [if_pos h3]
            have hc : u.Choice = "" := by
              by_contra hcc
              exact hn ⟨h3, hcc, hd⟩
            simp [UserState.handleTypingReply, hc]
          · rw [if_neg h3]
            exact handleChoosing_data _ text
  · intro h3 hc hd
    unfold UserState.HandleText
    rw [if_neg hd, if_neg (by rw [h3]; decide), if_neg (by rw [h3]; decide), if_pos h3]
    unfold UserState.handleTypingReply
    rw [if_neg hc]
    exact ⟨mapGet_mapSet_self u.Data u.Choice (goToLower text),
      fun k hk => mapGet_mapSet_ne u.Data u.Choice (goToLower text) k hk⟩

/-- C10, witness: storing `"30"` under the pending `"age"` key updates
that key and leaves the other key `"a"` untouched. -/
theorem C10_witness :
    mapGet (((⟨StateTypingReply, [("a", "b")], "age"⟩ : UserState).HandleText "30").1).Data
      "age" = some "30" ∧
    mapGet (((⟨StateTypingReply, [("a", "b")], "age"⟩ : UserState).HandleText "30").1).Data
      "a" = some "b" := by
  have h := (C10_frame ⟨StateTypingReply, [("a", "b")], "age"⟩ "30").2 rfl (by decide) (by decide)
  exact ⟨h.1, h.2 "a" (by decide)⟩
